import Mathlib

/-!
Shallow embedding of the client-side video cache engine of this repository
(file videoUtils.ts, together with the constants in constants.ts).

The IndexedDB object store is modelled as a list of records keyed by `url`
(the store is created with keyPath 'url', so records in the store have
pairwise distinct keys and `put` is an upsert).  Asynchronous callback code
is embedded sequentially: each exported operation becomes a function from the
store contents (plus the environment outcomes it depends on: whether
IndexedDB is available and the database opened, whether the platform `put`
or `getAll` request succeeds, the current `Date.now()` value, and the
network response) to its result together with the store contents afterwards.
Blobs are abstracted to an opaque content identifier plus the byte length
exposed by the platform `size` property.
-/

namespace VideoCache

/-- Development default of API_ROOT_URL from constants.ts; the claims treat it
as the fixed configured origin root. -/
def API_ROOT_URL : String := "http://localhost:8000"

/-- Embeds videoPath.replace applied to the pattern matching the maximal run of
leading slashes: drop every leading slash character. -/
def normalizePath (p : String) : String :=
  String.mk (p.data.dropWhile (fun c => c == '/'))

/-- Embeds getVideoUrl: strip leading slashes, then prepend the origin root and
a single slash. -/
def getVideoUrl (videoPath : String) : String :=
  API_ROOT_URL ++ "/" ++ normalizePath videoPath

/-- Abstraction of a platform Blob: an opaque identifier standing for the byte
content, plus the byte length exposed by the platform size property. -/
structure Blob where
  content : Nat
  size : Nat
deriving DecidableEq

/-- The stored record (interface CachedVideo in the source): keyed by url, with
the payload blob, the write timestamp (Date.now() in milliseconds) and the blob
size recorded at write time. -/
structure CachedVideo where
  url : String
  blob : Blob
  timestamp : Int
  size : Nat
deriving DecidableEq

/-- Embeds MAX_CACHE_SIZE = 500 * 1024 * 1024 bytes. -/
def MAX_CACHE_SIZE : Nat := 500 * 1024 * 1024

/-- Embeds CACHE_EXPIRY_DAYS = 30. -/
def CACHE_EXPIRY_DAYS : Nat := 30

/-- The expiry window CACHE_EXPIRY_DAYS * 24 * 60 * 60 * 1000 milliseconds. -/
def expiryTime : Int := (CACHE_EXPIRY_DAYS : Int) * 24 * 60 * 60 * 1000

/-- The eviction watermark MAX_CACHE_SIZE * 0.8.  The running total compared
against it is a sum of integer blob sizes, and for integers t the JS float
comparison t <= 524288000 * 0.8 holds exactly when t ≤ 419430400, which equals
MAX_CACHE_SIZE * 4 / 5. -/
def cleanupTarget : Nat := MAX_CACHE_SIZE * 4 / 5

/-- Embeds isExpired: now - timestamp > expiryTime. -/
def isExpired (timestamp now : Int) : Bool :=
  now - timestamp > expiryTime

/-- Sum of the size fields over the store contents. -/
def totalSize (store : List CachedVideo) : Nat :=
  (store.map (fun e => e.size)).sum

/-- The comparator (a, b) => a.timestamp - b.timestamp used by cleanupCache,
as the corresponding boolean ordering: a sorts no later than b when
a.timestamp ≤ b.timestamp. -/
def tsLe (a b : CachedVideo) : Bool :=
  a.timestamp ≤ b.timestamp

/-- Embeds entries.sort with the comparator a.timestamp - b.timestamp:
ascending by timestamp. -/
def sortByTimestamp (l : List CachedVideo) : List CachedVideo :=
  l.mergeSort tsLe

/-- IndexedDB store.put on a store with keyPath url: an upsert replacing any
record with the same key. -/
def putStore (store : List CachedVideo) (e : CachedVideo) : List CachedVideo :=
  e :: store.filter (fun x => x.url != e.url)

/-- IndexedDB store.delete by key; deleting an absent key is a no-op. -/
def deleteByUrl (store : List CachedVideo) (url : String) : List CachedVideo :=
  store.filter (fun x => x.url != url)

/-- IndexedDB store.get by key. -/
def findByUrl (store : List CachedVideo) (url : String) : Option CachedVideo :=
  store.find? (fun x => x.url == url)

/-- The deletion loop of cleanupCache: walk the (sorted) entry list, delete the
head and decrement the running total, and stop as soon as the decremented total
is at or below the watermark.  The second argument is the running total, which
on every call equals the summed size of the first argument. -/
def evictLoop : List CachedVideo → Nat → List CachedVideo
  | [], _ => []
  | e :: rest, t =>
    if t - e.size ≤ cleanupTarget then rest else evictLoop rest (t - e.size)

/-- Embeds cleanupCache (the db-available path): list all entries and sum their
sizes; when the sum exceeds MAX_CACHE_SIZE, sort ascending by timestamp and
delete oldest entries one at a time until the running total is at or below the
watermark.  Returns the store contents after the sweep. -/
def cleanupCache (store : List CachedVideo) : List CachedVideo :=
  if totalSize store > MAX_CACHE_SIZE then
    evictLoop (sortByTimestamp store) (totalSize store)
  else store

/-- Embeds deleteCachedVideo.  The db flag tells whether getVideoCache yielded
a database; when it did not, the function returns without touching the store. -/
def deleteCachedVideo (db : Bool) (store : List CachedVideo) (videoPath : String) :
    List CachedVideo :=
  if db then deleteByUrl store (getVideoUrl videoPath) else store

/-- Embeds isVideoCached, returning the resolved boolean together with the
store contents afterwards.  With no database the promise resolves false.  On a
found record the expiry check runs; an expired record is deleted via
deleteCachedVideo and the read resolves false, else it resolves true.  A get
error also resolves false (covered by the none branch: the record is treated
as absent and the store untouched). -/
def isVideoCached (db : Bool) (store : List CachedVideo) (videoPath : String)
    (now : Int) : Bool × List CachedVideo :=
  if db then
    match findByUrl store (getVideoUrl videoPath) with
    | some e =>
      if isExpired e.timestamp now then
        (false, deleteCachedVideo db store videoPath)
      else (true, store)
    | none => (false, store)
  else (false, store)

/-- Embeds getCachedVideo, returning the resolved payload (none on miss)
together with the store contents afterwards.  The transaction is readonly: the
function resolves the blob when the record exists and is unexpired and resolves
null otherwise, and in every case leaves the store unchanged. -/
def getCachedVideo (db : Bool) (store : List CachedVideo) (videoPath : String)
    (now : Int) : Option Blob × List CachedVideo :=
  if db then
    match findByUrl store (getVideoUrl videoPath) with
    | some e =>
      if isExpired e.timestamp now then (none, store) else (some e.blob, store)
    | none => (none, store)
  else (none, store)

/-- Embeds cacheVideo.  With no database it returns at once.  Otherwise the
pre-write sweep cleanupCache runs, then store.put upserts the record built with
url = getVideoUrl videoPath, timestamp = Date.now() and size = blob.size.  The
putOk flag tells whether the platform put succeeded; a put failure is caught by
the surrounding try/catch and leaves the post-sweep store.  The function never
propagates an error, so its embedding is total. -/
def cacheVideo (db putOk : Bool) (store : List CachedVideo) (videoPath : String)
    (blob : Blob) (now : Int) : List CachedVideo :=
  if db then
    let cleaned := cleanupCache store
    if putOk then
      putStore cleaned ⟨getVideoUrl videoPath, blob, now, blob.size⟩
    else cleaned
  else store

/-- Embeds fetchVideoWithCache.  The network outcome for this path is given as
net (some blob for an ok response whose body read back blob, none for a failed
or non-ok response).  Returns the Except result (ok payload, or the thrown
fetch error) together with the store contents afterwards. -/
def fetchVideoWithCache (db putOk : Bool) (store : List CachedVideo)
    (videoPath : String) (net : Option Blob) (now : Int) :
    Except String Blob × List CachedVideo :=
  match getCachedVideo db store videoPath now with
  | (some b, s1) => (Except.ok b, s1)
  | (none, s1) =>
    match net with
    | none => (Except.error "Failed to fetch video", s1)
    | some blob => (Except.ok blob, cacheVideo db putOk s1 videoPath blob now)

/-- Result of getCachedVideoUrl: either a local object URL handle over a blob
(URL.createObjectURL) or the direct network URL string. -/
inductive VideoHandle where
  | objectUrl (blob : Blob)
  | directUrl (url : String)
deriving DecidableEq

/-- Embeds getCachedVideoUrl: try the cache-backed pipeline and expose the
payload as a local object handle; on any pipeline error fall back to the
direct network URL for the same path.  Total: it never propagates an error. -/
def getCachedVideoUrl (db putOk : Bool) (store : List CachedVideo)
    (videoPath : String) (net : Option Blob) (now : Int) :
    VideoHandle × List CachedVideo :=
  match fetchVideoWithCache db putOk store videoPath net now with
  | (Except.ok b, s) => (VideoHandle.objectUrl b, s)
  | (Except.error _, s) => (VideoHandle.directUrl (getVideoUrl videoPath), s)

/-- The record returned by getCacheStats. -/
structure CacheStats where
  totalSize : Nat
  entryCount : Nat
  isSupported : Bool
deriving DecidableEq

/-- Embeds getCacheStats.  supported tells whether the IndexedDB capability is
present; dbOpens whether getVideoCache yielded a database; listOk whether the
getAll scan succeeded (a request error or an exception thrown during the scan
are both caught and yield zeroed supported stats). -/
def getCacheStats (supported dbOpens listOk : Bool)
    (store : List CachedVideo) : CacheStats :=
  if supported then
    if dbOpens then
      if listOk then ⟨totalSize store, store.length, true⟩
      else ⟨0, 0, true⟩
    else ⟨0, 0, true⟩
  else ⟨0, 0, false⟩

/-- Concrete blob of 157286400 bytes (150MB), below MAX_CACHE_SIZE. -/
def c1Blob : Blob := ⟨0, 157286400⟩

/-- Store after one 150MB write via cacheVideo starting from the empty store. -/
def c1Step1 : List CachedVideo := cacheVideo true true [] "a" c1Blob 1

/-- Store after a second 150MB write via cacheVideo. -/
def c1Step2 : List CachedVideo := cacheVideo true true c1Step1 "b" c1Blob 2

/-- Store after a third 150MB write via cacheVideo. -/
def c1Step3 : List CachedVideo := cacheVideo true true c1Step2 "c" c1Blob 3

/-- Store after a fourth 150MB write via cacheVideo. -/
def c1Step4 : List CachedVideo := cacheVideo true true c1Step3 "d" c1Blob 4

/-- A stored record whose age at time c3Now exceeds the TTL. -/
def c3Entry : CachedVideo := ⟨getVideoUrl "a", ⟨0, 10⟩, 0, 10⟩

/-- A store holding exactly the expired record c3Entry. -/
def c3Store : List CachedVideo := [c3Entry]

/-- A current time one millisecond past the 30-day expiry of c3Entry. -/
def c3Now : Int := 2592000001

/-- The older of two 300MB records (timestamp 1). -/
def c2EntryOld : CachedVideo := ⟨getVideoUrl "a", ⟨1, 314572800⟩, 1, 314572800⟩

/-- The newer of two 300MB records (timestamp 2). -/
def c2EntryNew : CachedVideo := ⟨getVideoUrl "b", ⟨2, 314572800⟩, 2, 314572800⟩

/-- A store of two 300MB records totalling 600MB, over MAX_CACHE_SIZE. -/
def c2Store : List CachedVideo := [c2EntryNew, c2EntryOld]

/-- A fresh (unexpired at time 100) stored record. -/
def c9Entry : CachedVideo := ⟨getVideoUrl "a", ⟨7, 5⟩, 100, 5⟩

/-- A store holding exactly the fresh record c9Entry. -/
def c9Store : List CachedVideo := [c9Entry]

/-! Helper lemmas about the embedded operations, shared by the claim
theorems below. -/

/-- Filtering the store can only shrink the summed size. -/
theorem totalSize_filter_le (store : List CachedVideo) (p : CachedVideo → Bool) :
    totalSize (store.filter p) ≤ totalSize store := by
  induction store with
  | nil => simp [totalSize]
  | cons e rest ih =>
    by_cases h : p e = true
    · simpa [totalSize, List.filter_cons, h] using ih
    · simp only [totalSize, List.filter_cons, h] at ih ⊢
      simp only [Bool.false_eq_true, if_false, List.map_cons, List.sum_cons]
      omega

/-- The ascending sort of cleanupCache preserves the summed size. -/
theorem totalSize_sortByTimestamp (l : List CachedVideo) :
    totalSize (sortByTimestamp l) = totalSize l := by
  unfold totalSize sortByTimestamp
  exact ((List.mergeSort_perm l tsLe).map (fun e => e.size)).sum_eq

/-- The deletion loop of cleanupCache only ever removes a prefix of the sorted
entry list: what remains is a suffix. -/
theorem evictLoop_suffix (l : List CachedVideo) (t : Nat) : evictLoop l t <:+ l := by
  induction l generalizing t with
  | nil => simp [evictLoop]
  | cons e rest ih =>
    unfold evictLoop
    by_cases h : t - e.size ≤ cleanupTarget
    · simp [h]
    · simp only [h, if_false]
      exact (ih (t - e.size)).trans (List.suffix_cons e rest)

/-- When started with the true summed size, the deletion loop always ends with
the remaining summed size at or below the watermark. -/
theorem evictLoop_total_le (l : List CachedVideo) (t : Nat) (ht : t = totalSize l) :
    totalSize (evictLoop l t) ≤ cleanupTarget := by
  induction l generalizing t with
  | nil => simp [evictLoop, totalSize]
  | cons e rest ih =>
    have hrest : t - e.size = totalSize rest := by
      subst ht; simp [totalSize]
    unfold evictLoop
    by_cases h : t - e.size ≤ cleanupTarget
    · rw [if_pos h]
      rwa [hrest] at h
    · rw [if_neg h]
      exact ih (t - e.size) hrest

/-- The deletion loop stops as soon as the watermark is reached: every strictly
longer suffix of its input still sums above the watermark. -/
theorem evictLoop_minimal (l : List CachedVideo) (t : Nat) (ht : t = totalSize l)
    (hgt : cleanupTarget < t) :
    ∀ s, s <:+ l → (evictLoop l t).length < s.length → cleanupTarget < totalSize s := by
  induction l generalizing t with
  | nil =>
    intro s hs hlen
    rw [List.suffix_nil] at hs
    subst hs
    simp [evictLoop] at hlen
  | cons e rest ih =>
    intro s hs hlen
    have hrest : t - e.size = totalSize rest := by
      subst ht; simp [totalSize]
    rw [List.suffix_cons_iff] at hs
    by_cases h : t - e.size ≤ cleanupTarget
    · rcases hs with rfl | hs
      · rw [← ht]; exact hgt
      · exfalso
        have hle := hs.length_le
        unfold evictLoop at hlen
        rw [if_pos h] at hlen
        omega
    · rcases hs with rfl | hs
      · rw [← ht]; exact hgt
      · unfold evictLoop at hlen
        rw [if_neg h] at hlen
        exact ih (t - e.size) hrest (by omega) s hs hlen

/-- On a capacity breach, cleanupCache runs the deletion loop on the sorted
entries with the summed size as the running total. -/
theorem cleanupCache_of_over (store : List CachedVideo)
    (hover : totalSize store > MAX_CACHE_SIZE) :
    cleanupCache store = evictLoop (sortByTimestamp store) (totalSize store) := by
  unfold cleanupCache
  rw [if_pos hover]

/-- The watermark is strictly below the capacity budget. -/
theorem cleanupTarget_lt_max : cleanupTarget < MAX_CACHE_SIZE := by decide

/-- An upsert adds at most the new record's size to the store's summed size. -/
theorem totalSize_putStore_le (store : List CachedVideo) (e : CachedVideo) :
    totalSize (putStore store e) ≤ e.size + totalSize store := by
  unfold putStore
  simp only [totalSize, List.map_cons, List.sum_cons]
  have := totalSize_filter_le store (fun x => x.url != e.url)
  unfold totalSize at this
  omega

/-! The claim theorems. -/

/-- C5: isExpired holds exactly when the age now - timestamp strictly exceeds
the fixed 30-day TTL in milliseconds, for every timestamp and current time; an
entry whose age equals the TTL exactly is not expired.  The definition of
isExpired takes no per-entry TTL, so the same constant applies uniformly. -/
theorem isExpired_iff_ttl (timestamp now : Int) :
    (isExpired timestamp now = true ↔
      now - timestamp > 30 * 24 * 60 * 60 * 1000) ∧
    isExpired timestamp (timestamp + 30 * 24 * 60 * 60 * 1000) = false := by
  constructor
  · simp only [isExpired, expiryTime, CACHE_EXPIRY_DAYS, decide_eq_true_eq]
    omega
  · simp only [isExpired, expiryTime, CACHE_EXPIRY_DAYS, decide_eq_false_iff_not]
    omega

/-- Witness for C5 at timestamp 0 and now one millisecond past the TTL. -/
theorem isExpired_iff_ttl_witness : isExpired 0 2592000001 = true :=
  (isExpired_iff_ttl 0 2592000001).1.mpr (by decide)

/-- C6: the key derivation getVideoUrl is deterministic, identifies a path
with its leading-slash variant, and is injective on paths that remain distinct
after stripping leading slashes. -/
theorem getVideoUrl_key_derivation :
    (∀ p : String, getVideoUrl p = getVideoUrl p) ∧
    (∀ p : String, getVideoUrl ("/" ++ p) = getVideoUrl p) ∧
    (∀ p q : String, normalizePath p ≠ normalizePath q →
      getVideoUrl p ≠ getVideoUrl q) := by
  refine ⟨fun p => rfl, fun p => ?_, fun p q hne heq => ?_⟩
  · unfold getVideoUrl normalizePath
    have hdata : ("/" ++ p).data = '/' :: p.data := by
      simp [String.data_append]
    rw [hdata]
    simp [List.dropWhile]
  · apply hne
    unfold getVideoUrl at heq
    have hdata : (API_ROOT_URL ++ "/" ++ normalizePath p).data =
        (API_ROOT_URL ++ "/" ++ normalizePath q).data := by rw [heq]
    simp only [String.data_append] at hdata
    exact String.ext (List.append_cancel_left hdata)

/-- Witness for C6: keys of the two distinct normalized paths a and b differ,
and the slash-insensitivity instance at path a. -/
theorem getVideoUrl_key_derivation_witness :
    getVideoUrl "a" ≠ getVideoUrl "b" ∧ getVideoUrl "/a" = getVideoUrl "a" :=
  ⟨getVideoUrl_key_derivation.2.2 "a" "b" (by decide),
   getVideoUrl_key_derivation.2.1 "a"⟩

/-- C1 counterexample: starting from the empty store, four cacheVideo writes of
a 150MB blob (none oversized: every written and remaining object is at most
MAX_CACHE_SIZE) leave the summed size at 629145600 bytes, strictly above the
500MB budget, immediately after the fourth write completes — the sweep before
the fourth write sees a 450MB total, below the budget, and evicts nothing. -/
theorem capacity_invariant_counterexample :
    totalSize c1Step4 = 629145600 ∧
    totalSize c1Step4 > MAX_CACHE_SIZE ∧
    c1Blob.size ≤ MAX_CACHE_SIZE ∧
    (∀ e ∈ c1Step4, e.size ≤ MAX_CACHE_SIZE) := by decide

/-- C1 amended: immediately after any write via cacheVideo (the put path)
completes, the summed size of the remaining entries is at most MAX_CACHE_SIZE
plus the size of the object just written — the budget can be overshot by up to
the size of the most recent written object even when no single object exceeds
the budget, because the pre-write sweep measures the store without the
incoming blob and only runs when the old total already exceeds the budget. -/
theorem cacheVideo_capacity_bound (putOk : Bool) (store : List CachedVideo)
    (videoPath : String) (blob : Blob) (now : Int) :
    totalSize (cacheVideo true putOk store videoPath blob now) ≤
      MAX_CACHE_SIZE + blob.size := by
  unfold cacheVideo
  simp only [if_true]
  have hclean : totalSize (cleanupCache store) ≤
      max (totalSize store) cleanupTarget := by
    by_cases hover : totalSize store > MAX_CACHE_SIZE
    · rw [cleanupCache_of_over store hover]
      have := evictLoop_total_le (sortByTimestamp store) (totalSize store)
        (totalSize_sortByTimestamp store).symm
      omega
    · unfold cleanupCache
      rw [if_neg hover]
      omega
  have hcap : totalSize (cleanupCache store) ≤ MAX_CACHE_SIZE := by
    by_cases hover : totalSize store > MAX_CACHE_SIZE
    · rw [cleanupCache_of_over store hover]
      have := evictLoop_total_le (sortByTimestamp store) (totalSize store)
        (totalSize_sortByTimestamp store).symm
      have := cleanupTarget_lt_max
      omega
    · unfold cleanupCache
      rw [if_neg hover]
      omega
  by_cases hput : putOk = true
  · rw [if_pos hput]
    have hp := totalSize_putStore_le (cleanupCache store)
      ⟨getVideoUrl videoPath, blob, now, blob.size⟩
    simp only at hp
    omega
  · rw [if_neg hput]
    omega

/-- C2: on a store with pairwise-distinct timestamps whose summed size exceeds
MAX_CACHE_SIZE, the sweep removes a prefix of the ascending-by-timestamp sort
(so the oldest entry goes first and entries leave one at a time in ascending
timestamp order), the remaining summed size is at or below the 80% watermark,
the sweep stops as soon as that watermark is reached (every strictly longer
suffix of the sort still sums above the watermark), and every surviving entry
has a timestamp at least as large as every deleted entry's. -/
theorem cleanupCache_eviction_order (store : List CachedVideo)
    (hdist : (store.map (fun e => e.timestamp)).Pairwise (fun a b => a ≠ b))
    (hover : totalSize store > MAX_CACHE_SIZE) :
    cleanupCache store <:+ sortByTimestamp store ∧
    totalSize (cleanupCache store) ≤ cleanupTarget ∧
    (∀ s, s <:+ sortByTimestamp store → (cleanupCache store).length < s.length →
      cleanupTarget < totalSize s) ∧
    (∀ d ∈ store, d ∉ cleanupCache store →
      ∀ k ∈ cleanupCache store, d.timestamp ≤ k.timestamp) := by
  have hts : totalSize store = totalSize (sortByTimestamp store) :=
    (totalSize_sortByTimestamp store).symm
  have hcc := cleanupCache_of_over store hover
  have hgt : cleanupTarget < totalSize store :=
    lt_trans cleanupTarget_lt_max hover
  have hsuffix : cleanupCache store <:+ sortByTimestamp store := by
    rw [hcc]
    exact evictLoop_suffix _ _
  refine ⟨hsuffix, ?_, ?_, ?_⟩
  · rw [hcc]
    exact evictLoop_total_le _ _ hts
  · rw [hcc]
    exact evictLoop_minimal _ _ hts hgt
  · intro d hd hdnot k hk
    have htrans : ∀ a b c : CachedVideo,
        tsLe a b = true → tsLe b c = true → tsLe a c = true := by
      intro a b c hab hbc
      simp only [tsLe, decide_eq_true_eq] at hab hbc ⊢
      omega
    have htotal : ∀ a b : CachedVideo, (tsLe a b || tsLe b a) = true := by
      intro a b
      simp only [tsLe, Bool.or_eq_true, decide_eq_true_eq]
      omega
    have hsorted : (sortByTimestamp store).Pairwise (fun a b => tsLe a b = true) := by
      unfold sortByTimestamp
      exact List.sorted_mergeSort htrans htotal store
    have hdsorted : d ∈ sortByTimestamp store := by
      unfold sortByTimestamp
      exact ((List.mergeSort_perm store tsLe).mem_iff).mpr hd
    obtain ⟨p, hp⟩ := hsuffix
    rw [← hp] at hdsorted hsorted
    rcases List.mem_append.mp hdsorted with hdp | hdres
    · have hcross := (List.pairwise_append.mp hsorted).2.2 d hdp k hk
      simpa [tsLe, decide_eq_true_eq] using hcross
    · exact absurd hdres hdnot

/-- Witness for C2 on a store of two 300MB entries with timestamps 2 and 1. -/
theorem cleanupCache_eviction_order_witness :
    cleanupCache c2Store <:+ sortByTimestamp c2Store ∧
    totalSize (cleanupCache c2Store) ≤ cleanupTarget ∧
    (∀ s, s <:+ sortByTimestamp c2Store → (cleanupCache c2Store).length < s.length →
      cleanupTarget < totalSize s) ∧
    (∀ d ∈ c2Store, d ∉ cleanupCache c2Store →
      ∀ k ∈ cleanupCache c2Store, d.timestamp ≤ k.timestamp) :=
  cleanupCache_eviction_order c2Store (by decide) (by decide)

/-- C3 counterexample: on a store holding one entry whose age exceeds the TTL,
the payload lookup getCachedVideo reports a miss (none) but does not delete the
expired entry — the store after the read still contains it, refuting the claim
that both read operations delete expired entries as a side effect. -/
theorem getCachedVideo_no_delete_counterexample :
    isExpired c3Entry.timestamp c3Now = true ∧
    (getCachedVideo true c3Store "a" c3Now).1 = none ∧
    (getCachedVideo true c3Store "a" c3Now).2 = c3Store ∧
    c3Entry ∈ (getCachedVideo true c3Store "a" c3Now).2 := by decide

/-- C3 amended: for every stored entry whose age exceeds the TTL, both read
operations report a miss; isVideoCached additionally deletes the expired entry
as a side effect, while getCachedVideo leaves the store unchanged, so the
expired entry survives that read. -/
theorem expired_read_behavior (store : List CachedVideo) (videoPath : String)
    (now : Int) (e : CachedVideo)
    (hfind : findByUrl store (getVideoUrl videoPath) = some e)
    (hexp : isExpired e.timestamp now = true) :
    getCachedVideo true store videoPath now = (none, store) ∧
    isVideoCached true store videoPath now =
      (false, deleteByUrl store (getVideoUrl videoPath)) ∧
    e ∉ deleteByUrl store (getVideoUrl videoPath) := by
  refine ⟨?_, ?_, ?_⟩
  · simp [getCachedVideo, hfind, hexp]
  · simp [isVideoCached, deleteCachedVideo, hfind, hexp]
  · intro hmem
    unfold findByUrl at hfind
    have hurl := List.find?_some hfind
    simp only [beq_iff_eq] at hurl
    unfold deleteByUrl at hmem
    rw [List.mem_filter] at hmem
    rcases hmem with ⟨_, hne⟩
    rw [bne_iff_ne] at hne
    exact hne hurl

/-- Witness for C3 amended on the concrete expired store. -/
theorem expired_read_behavior_witness :
    getCachedVideo true c3Store "a" c3Now = (none, c3Store) ∧
    isVideoCached true c3Store "a" c3Now =
      (false, deleteByUrl c3Store (getVideoUrl "a")) ∧
    c3Entry ∉ deleteByUrl c3Store (getVideoUrl "a") :=
  expired_read_behavior c3Store "a" c3Now c3Entry (by decide) (by decide)

/-- C4: whenever the network fetch succeeds, fetchVideoWithCache returns an ok
payload (never an error), for every store, availability flag and put outcome —
in particular when every put fails; on a cache miss it returns exactly the
fetched payload; and an error result can only arise from a cache miss followed
by a failed network response. -/
theorem fetchVideoWithCache_fail_soft (db putOk : Bool) (store : List CachedVideo)
    (videoPath : String) (net : Option Blob) (now : Int) :
    (∀ blob, net = some blob →
      ∃ b, (fetchVideoWithCache db putOk store videoPath net now).1 = Except.ok b) ∧
    (∀ blob, net = some blob →
      (getCachedVideo db store videoPath now).1 = none →
      (fetchVideoWithCache db putOk store videoPath net now).1 = Except.ok blob) ∧
    (∀ msg, (fetchVideoWithCache db putOk store videoPath net now).1 =
        Except.error msg →
      (getCachedVideo db store videoPath now).1 = none ∧ net = none) := by
  rcases hg : getCachedVideo db store videoPath now with ⟨ob, s1⟩
  cases ob with
  | none =>
    cases net with
    | none =>
      refine ⟨?_, ?_, ?_⟩
      · intro blob hnet
        exact absurd hnet (by simp)
      · intro blob hnet
        exact absurd hnet (by simp)
      · intro msg hmsg
        simp [hg]
    | some blob =>
      refine ⟨?_, ?_, ?_⟩
      · intro b hnet
        exact ⟨blob, by simp [fetchVideoWithCache, hg]⟩
      · intro b hnet hmiss
        obtain rfl : blob = b := by simpa using hnet
        simp [fetchVideoWithCache, hg]
      · intro msg hmsg
        exact absurd hmsg (by simp [fetchVideoWithCache, hg])
  | some b =>
    refine ⟨?_, ?_, ?_⟩
    · intro blob hnet
      exact ⟨b, by simp [fetchVideoWithCache, hg]⟩
    · intro blob hnet hmiss
      simp at hmiss
    · intro msg hmsg
      exact absurd hmsg (by simp [fetchVideoWithCache, hg])

/-- Witness for C4: with an always-failing put, an empty store and a successful
network response, the fetch still returns the fetched payload. -/
theorem fetchVideoWithCache_fail_soft_witness :
    (fetchVideoWithCache true false [] "a" (some ⟨1, 5⟩) 0).1 = Except.ok ⟨1, 5⟩ :=
  (fetchVideoWithCache_fail_soft true false [] "a" (some ⟨1, 5⟩) 0).2.1 ⟨1, 5⟩ rfl rfl

/-- C7: with the IndexedDB capability absent, getCacheStats returns exactly
zeroed stats with isSupported false, and fetchVideoWithCache takes the network
path on every request, leaving the store untouched: a successful network fetch
returns the payload, a failed one the fetch error — no storage error arises
(the embedding of every storage operation is total in this case). -/
theorem unsupported_degrades_to_network (dbOpens listOk putOk : Bool)
    (store : List CachedVideo) (videoPath : String) (now : Int) :
    getCacheStats false dbOpens listOk store = ⟨0, 0, false⟩ ∧
    (∀ blob : Blob, fetchVideoWithCache false putOk store videoPath (some blob) now =
      (Except.ok blob, store)) ∧
    fetchVideoWithCache false putOk store videoPath none now =
      (Except.error "Failed to fetch video", store) := by
  refine ⟨by simp [getCacheStats], fun blob => ?_, ?_⟩
  · simp [fetchVideoWithCache, getCachedVideo, cacheVideo]
  · simp [fetchVideoWithCache, getCachedVideo]

/-- C8: getCachedVideoUrl is total (never propagates an error): when the
cache-backed pipeline returns a payload it yields the local object handle over
that payload, and when the pipeline fails with any error it yields the direct
network URL for the same path. -/
theorem getCachedVideoUrl_never_raises (db putOk : Bool) (store : List CachedVideo)
    (videoPath : String) (net : Option Blob) (now : Int) :
    (∀ b, (fetchVideoWithCache db putOk store videoPath net now).1 = Except.ok b →
      (getCachedVideoUrl db putOk store videoPath net now).1 =
        VideoHandle.objectUrl b) ∧
    (∀ msg, (fetchVideoWithCache db putOk store videoPath net now).1 =
        Except.error msg →
      (getCachedVideoUrl db putOk store videoPath net now).1 =
        VideoHandle.directUrl (getVideoUrl videoPath)) := by
  rcases hf : fetchVideoWithCache db putOk store videoPath net now with ⟨r, s⟩
  cases r with
  | ok b =>
    refine ⟨?_, ?_⟩
    · intro x hx
      simp only [Except.ok.injEq] at hx
      subst hx
      simp [getCachedVideoUrl, hf]
    · intro msg hmsg
      simp at hmsg
  | error msg =>
    refine ⟨?_, ?_⟩
    · intro x hx
      simp at hx
    · intro m hm
      simp [getCachedVideoUrl, hf]

/-- Witness for C8: network failure on an uncached path falls back to the
direct network URL. -/
theorem getCachedVideoUrl_never_raises_witness :
    (getCachedVideoUrl true true [] "a" none 0).1 =
      VideoHandle.directUrl (getVideoUrl "a") :=
  (getCachedVideoUrl_never_raises true true [] "a" none 0).2
    "Failed to fetch video" rfl

/-- C9: a fresh cache hit mutates nothing: when the entry for the path is
present and unexpired, getCachedVideo returns its payload with the store
exactly unchanged, and fetchVideoWithCache returns that cached payload with the
store exactly unchanged (no put, no delete, timestamps untouched). -/
theorem fresh_hit_frame (putOk : Bool) (store : List CachedVideo)
    (videoPath : String) (net : Option Blob) (now : Int) (e : CachedVideo)
    (hfind : findByUrl store (getVideoUrl videoPath) = some e)
    (hfresh : isExpired e.timestamp now = false) :
    getCachedVideo true store videoPath now = (some e.blob, store) ∧
    fetchVideoWithCache true putOk store videoPath net now =
      (Except.ok e.blob, store) := by
  have h1 : getCachedVideo true store videoPath now = (some e.blob, store) := by
    simp [getCachedVideo, hfind, hfresh]
  refine ⟨h1, ?_⟩
  unfold fetchVideoWithCache
  rw [h1]

/-- Witness for C9 on a store with one fresh entry. -/
theorem fresh_hit_frame_witness :
    getCachedVideo true c9Store "a" 100 = (some c9Entry.blob, c9Store) ∧
    fetchVideoWithCache true true c9Store "a" none 100 =
      (Except.ok c9Entry.blob, c9Store) :=
  fresh_hit_frame true c9Store "a" none 100 c9Entry (by decide) (by decide)

/-- C10: getCacheStats reports isSupported false exactly when the IndexedDB
capability is absent; with the capability present, a database that fails to
open or a failing getAll scan each yield zeroed counts with isSupported true;
the embedding is total, so no error propagates in any case. -/
theorem getCacheStats_failure_modes (supported dbOpens listOk : Bool)
    (store : List CachedVideo) :
    ((getCacheStats supported dbOpens listOk store).isSupported = false ↔
      supported = false) ∧
    (supported = true → dbOpens = false →
      getCacheStats supported dbOpens listOk store = ⟨0, 0, true⟩) ∧
    (supported = true → listOk = false →
      getCacheStats supported dbOpens listOk store = ⟨0, 0, true⟩) := by
  cases supported <;> cases dbOpens <;> cases listOk <;> simp [getCacheStats]

/-- Witness for C10: capability present but the database fails to open. -/
theorem getCacheStats_failure_modes_witness :
    getCacheStats true false true [] = ⟨0, 0, true⟩ :=
  (getCacheStats_failure_modes true false true []).2.1 rfl rfl

end VideoCache
